import Mathlib

/-!
# Verification of the privateindexer-server catalog core

A shallow embedding of the torrent-catalog search, upload-deduplication,
swarm-aggregation and reconciliation logic of `privateindexer_server`,
together with theorems settling the specification's claims about it.

Conventions:
* SQL `NULL`-able columns are modelled as `Option`; SQL comparisons follow
  three-valued logic (a comparison against a `NULL` field is not satisfied,
  `IS NULL` tests `Option.isNone`).
* datetimes and Redis scores are modelled as integers (Unix seconds).
* The relational store is a `List Torrent`; uniqueness invariants of the
  schema (`PRIMARY KEY (id)`, `UNIQUE (hash_v1)`, `UNIQUE (hash_v2)` from
  `TORRENTS_TABLE_SQL` in `core/mysql.py`) appear as explicit hypotheses.
-/

/-- `utils.clean_text_filter`: transliterate (the external `unidecode`
collaborator is modelled as dropping non-ASCII characters), lowercase, and
strip every character outside `[a-z0-9]`. -/
def clean_text_filter (s : String) : String :=
  String.mk ((s.data.map Char.toLower).filter
    (fun c => decide (('a' ≤ c ∧ c ≤ 'z') ∨ ('0' ≤ c ∧ c ≤ '9'))))

/-- SQL `LIKE '%pat%'` where `pat` is produced by `clean_text_filter` (hence
contains no LIKE metacharacters): substring containment. -/
def likeContains (hay pat : String) : Bool :=
  decide (pat.data <:+: hay.data)

/-- A row of the `torrents` table (`TORRENTS_TABLE_SQL` in `core/mysql.py`). -/
structure Torrent where
  id : Nat
  name : String
  normalized_name : String
  season : Option Int
  episode : Option Int
  imdbid : Option Int
  tmdbid : Option Int
  tvdbid : Option Int
  artist : Option String
  album : Option String
  size : Nat
  category : Int
  hash_v1 : String
  hash_v2 : String
  hash_v2_trunc : String
  files : Nat
  grabs : Nat
  added_on : Nat
  added_by_user_id : Option Nat
  last_seen : Nat
  torrent_path : Option String
  deriving DecidableEq, Repr

/-- The query parameters of `torznab_api` (`core/routes/torznab.py`).
`cat` is modelled after the comma-separated list has been split and parsed
to integers; `q` defaults to `""` and is never `None` in the handler. -/
structure SearchParams where
  t : String
  q : String
  cat : Option (List Int)
  season : Option Int
  ep : Option Int
  imdbid : Option Int
  tmdbid : Option Int
  tvdbid : Option Int
  artist : Option String
  album : Option String
  limit : Nat
  offset : Nat
  include_my_uploads : Bool
  deriving DecidableEq, Repr

/-- SQL clause `t.added_by_user_id != %s` (three-valued logic: a row whose
`added_by_user_id` is `NULL` does not satisfy the clause). -/
def notOwnClause (uid : Nat) (r : Torrent) : Bool :=
  match r.added_by_user_id with
  | some u => decide (u ≠ uid)
  | none => false

/-- SQL clause `t.normalized_name LIKE %s` with parameter
`'%' + clean_text_filter(q) + '%'`. -/
def textClause (q : String) (r : Torrent) : Bool :=
  likeContains r.normalized_name (clean_text_filter q)

/-- SQL clause `t.category IN (...)`. -/
def catClause (cats : List Int) (r : Torrent) : Bool :=
  cats.contains r.category

/-- Truthiness of an optional integer query parameter in Python
(`if imdbid:`): present and nonzero. -/
def idTruthy : Option Int → Bool
  | none => false
  | some v => v != 0

/-- The `or_clauses` list of `torznab_api`: one equality clause per truthy
external identifier, in source order (imdbid, tmdbid, tvdbid). -/
def idOrClauses (p : SearchParams) : List (Torrent → Bool) :=
  (if idTruthy p.imdbid then [fun r => r.imdbid == p.imdbid]
   else ([] : List (Torrent → Bool)))
    ++ (if idTruthy p.tmdbid then [fun r => r.tmdbid == p.tmdbid]
        else ([] : List (Torrent → Bool)))
    ++ (if idTruthy p.tvdbid then [fun r => r.tvdbid == p.tvdbid]
        else ([] : List (Torrent → Bool)))

/-- The TV-specific clauses of `torznab_api` (`t == "tvsearch"`): season
equality when a season is supplied, then either episode equality (episode
supplied) or `episode IS NULL` (season-pack rule), then the cross-kind
exclusions `artist IS NULL` and `album IS NULL`. -/
def tvClauses (p : SearchParams) : List (Torrent → Bool) :=
  (match p.season with
   | some s =>
       [fun r : Torrent => r.season == some s]
         ++ (match p.ep with
             | some e => [fun r : Torrent => r.episode == some e]
             | none => [fun r : Torrent => r.episode == none])
   | none => ([] : List (Torrent → Bool)))
    ++ [fun r : Torrent => r.artist == none, fun r : Torrent => r.album == none]

/-- The movie-specific clauses (`t == "movie"`): cross-kind exclusions. -/
def movieClauses : List (Torrent → Bool) :=
  [fun r : Torrent => r.season == none, fun r : Torrent => r.episode == none,
   fun r : Torrent => r.artist == none, fun r : Torrent => r.album == none]

/-- The music-specific clauses (`t == "music"`): cross-kind exclusions plus
normalized artist/album equality when supplied. -/
def musicClauses (p : SearchParams) : List (Torrent → Bool) :=
  [fun r : Torrent => r.season == none, fun r : Torrent => r.episode == none]
    ++ (match p.artist with
        | some a => [fun r : Torrent => r.artist == some (clean_text_filter a)]
        | none => ([] : List (Torrent → Bool)))
    ++ (match p.album with
        | some a => [fun r : Torrent => r.album == some (clean_text_filter a)]
        | none => ([] : List (Torrent → Bool)))

/-- The `where_clauses` list assembled by `torznab_api` for the non-RSS
branch, in source order: ownership, free text, category, type-specific
clauses, and the OR-joined identifier clause. -/
def whereClauses (uid : Nat) (p : SearchParams) : List (Torrent → Bool) :=
  (if p.include_my_uploads then ([] : List (Torrent → Bool))
   else [notOwnClause uid])
    ++ [textClause p.q]
    ++ (match p.cat with
        | some cs => [catClause cs]
        | none => ([] : List (Torrent → Bool)))
    ++ (if p.t = "tvsearch" then tvClauses p
        else if p.t = "movie" then movieClauses
        else if p.t = "music" then musicClauses p
        else ([] : List (Torrent → Bool)))
    ++ (if (idOrClauses p).isEmpty then ([] : List (Torrent → Bool))
        else [fun r : Torrent => (idOrClauses p).any (fun c => c r)])

/-- A row satisfies the assembled `WHERE` conjunction of the search query. -/
def matchesSearch (uid : Nat) (p : SearchParams) (r : Torrent) : Bool :=
  (whereClauses uid p).all (fun c => c r)

/-- The `where_clauses` in force when the RSS branch of `torznab_api` runs
(`t == "search"` with a blank `q`): only ownership and category. -/
def rssClauses (uid : Nat) (p : SearchParams) : List (Torrent → Bool) :=
  (if p.include_my_uploads then ([] : List (Torrent → Bool))
   else [notOwnClause uid])
    ++ (match p.cat with
        | some cs => [catClause cs]
        | none => ([] : List (Torrent → Bool)))

/-- A row satisfies the RSS-branch `WHERE` conjunction. -/
def rssMatches (uid : Nat) (p : SearchParams) (r : Torrent) : Bool :=
  (rssClauses uid p).all (fun c => c r)

/-- `ORDER BY added_on DESC`: newest first. -/
def addedOnGE (a b : Torrent) : Prop := b.added_on ≤ a.added_on

instance : DecidableRel addedOnGE := fun a b => Nat.decLe b.added_on a.added_on

instance : IsTotal Torrent addedOnGE := ⟨fun a b => Nat.le_total b.added_on a.added_on⟩

instance : IsTrans Torrent addedOnGE := ⟨fun _ _ _ h1 h2 => Nat.le_trans h2 h1⟩

/-- Execution of `ORDER BY added_on DESC` on the filtered rows. -/
def sortRows (l : List Torrent) : List Torrent :=
  List.insertionSort addedOnGE l

/-- Per-row enrichment with swarm stats: the `try/except` around
`utils.get_seeders_and_leechers` — on failure the row is kept with both
counts zeroed. `fetch` is the Redis collaborator. -/
def enrichRow (fetch : Nat → Except String (Nat × Nat)) (r : Torrent) :
    Torrent × Nat × Nat :=
  match fetch r.id with
  | Except.ok sl => (r, sl.1, sl.2)
  | Except.error _ => (r, 0, 0)

/-- The rows matching the search `WHERE` clause (the set counted by
`COUNT(*) OVER()`). -/
def searchMatching (db : List Torrent) (uid : Nat) (p : SearchParams) :
    List Torrent :=
  db.filter (matchesSearch uid p)

/-- The page returned by the search query: ordered, then
`LIMIT min(limit,1000) OFFSET offset`. -/
def searchPageRows (db : List Torrent) (uid : Nat) (p : SearchParams) :
    List Torrent :=
  ((sortRows (searchMatching db uid p)).drop p.offset).take (min p.limit 1000)

/-- `total_matches` as the handler reports it:
`results[0]["total_matches"] if results else 0`, where each result row's
`total_matches` column is the window count of all rows matching the
`WHERE` clause. -/
def totalReported (db : List Torrent) (uid : Nat) (p : SearchParams) : Nat :=
  if (searchPageRows db uid p).isEmpty then 0
  else (searchMatching db uid p).length

/-- The page returned by the RSS-branch query. -/
def rssPageRows (db : List Torrent) (uid : Nat) (p : SearchParams) :
    List Torrent :=
  ((sortRows (db.filter (rssMatches uid p))).drop p.offset).take (min p.limit 1000)

/-- The RSS-branch guard `not q or q.strip() == ""`: the query text is
empty or entirely whitespace. -/
def isBlank (s : String) : Bool := s.data.all Char.isWhitespace

/-- The possible outcomes of `torznab_api`. -/
inductive TorznabResponse where
  | caps : TorznabResponse
  | rssFeed (items : List (Torrent × Nat × Nat)) : TorznabResponse
  | searchResult (items : List (Torrent × Nat × Nat)) (total_matches : Nat) :
      TorznabResponse
  | badRequest : TorznabResponse
  deriving DecidableEq, Repr

/-- The enriched item list of a response, when it has one. -/
def TorznabResponse.items? : TorznabResponse → Option (List (Torrent × Nat × Nat))
  | .rssFeed items => some items
  | .searchResult items _ => some items
  | _ => none

/-- `torznab_api` (`core/routes/torznab.py`): branch on `t`, clamp the
limit, take the RSS branch for a blank `q` on a plain search, otherwise run
the windowed search query and enrich each returned row. -/
def torznab (db : List Torrent) (fetch : Nat → Except String (Nat × Nat))
    (uid : Nat) (p : SearchParams) : TorznabResponse :=
  if p.t = "caps" then .caps
  else if p.t = "search" ∨ p.t = "tvsearch" ∨ p.t = "movie" ∨ p.t = "music" then
    if p.t = "search" ∧ isBlank p.q = true then
      .rssFeed ((rssPageRows db uid p).map (enrichRow fetch))
    else
      .searchResult ((searchPageRows db uid p).map (enrichRow fetch))
        (totalReported db uid p)
  else .badRequest

example : clean_text_filter "Show S01E02!" = "shows01e02" := by decide

example : likeContains "shows01e02" "" = true := by decide

/-- The fields of a Redis peer hash `peer:{torrent_id}:{peer_id}` that the
core reads, after integer parsing; `none` stands for a field that is absent
or fails `int(...)` parsing. -/
structure PeerHash where
  user_id : Option Nat
  left : Option Int
  deriving DecidableEq, Repr

/-- The Swarm State Store: per-torrent sorted sets `peers:{torrent_id}`
mapping peer ids to `last_seen` scores, and per-peer hashes
`peer:{torrent_id}:{peer_id}`. -/
structure SwarmState where
  zsets : List (Nat × List (String × Int))
  hashes : List ((Nat × String) × PeerHash)
  deriving DecidableEq, Repr

/-- The members of the `peers:{tid}` sorted set. -/
def SwarmState.zsetOf (st : SwarmState) (tid : Nat) : List (String × Int) :=
  ((st.zsets.find? (fun z => z.1 == tid)).map (fun z => z.2)).getD []

/-- `HGETALL peer:{tid}:{pid}` (an absent key yields an empty mapping,
modelled as `none`). -/
def SwarmState.hashOf (st : SwarmState) (tid : Nat) (pid : String) :
    Option PeerHash :=
  (st.hashes.find? (fun e => e.1 == (tid, pid))).map (fun e => e.2)

/-- `ZRANGEBYSCORE key lo hi`: the members whose score lies in `[lo, hi]`. -/
def zrangebyscore (zset : List (String × Int)) (lo hi : Int) : List String :=
  (zset.filter (fun e => lo ≤ e.2 && e.2 ≤ hi)).map (fun e => e.1)

/-- `utils.get_seeders_and_leechers` (`core/utils.py`): fetch the peer ids
whose `last_seen` score lies in `[now - timeout, now]`, then classify each
peer with a hash by its `left` field (absent defaults to 1):
zero → seeder, otherwise → leecher. -/
def get_seeders_and_leechers (st : SwarmState) (timeout now : Int) (tid : Nat) :
    Nat × Nat :=
  let cutoff := now - timeout
  (zrangebyscore (st.zsetOf tid) cutoff now).foldl
    (fun acc pid =>
      match st.hashOf tid pid with
      | none => acc
      | some pd => if pd.left.getD 1 == 0 then (acc.1 + 1, acc.2)
                   else (acc.1, acc.2 + 1))
    (0, 0)

/-- The per-user projection of `periodic_stats_update_task`
(`core/stats_update.py`): scan every `peer:*:*` hash (no time filter),
skip hashes missing a parsable `user_id` or `left`, and classify the rest
by `left` — the pair is the `(seeding, leeching)` value written to the
`users` row of user `u`. -/
def userStats (st : SwarmState) (u : Nat) : Nat × Nat :=
  st.hashes.foldl
    (fun acc e =>
      match e.2.user_id, e.2.left with
      | some uid, some l =>
          if uid == u then
            (if l == 0 then (acc.1 + 1, acc.2) else (acc.1, acc.2 + 1))
          else acc
      | _, _ => acc)
    (0, 0)

/-- `ZREMRANGEBYSCORE key lo hi`: remaining members and the removed count. -/
def zremrangebyscore (zset : List (String × Int)) (lo hi : Int) :
    List (String × Int) × Nat :=
  ((zset.filter (fun e => !(lo ≤ e.2 && e.2 ≤ hi))),
   (zset.filter (fun e => lo ≤ e.2 && e.2 ≤ hi)).length)

/-- One pass of `periodic_peer_timeout_task` (`core/peer_timeout.py`):
for every `peers:*` sorted set, remove the members with score in
`[0, now - timeout]`; the `peer:*:*` hashes are not touched. Returns the
new store and the purged count. -/
def peerTimeoutSweep (st : SwarmState) (timeout now : Int) : SwarmState × Nat :=
  let cutoff := now - timeout
  (⟨st.zsets.map (fun z => (z.1, (zremrangebyscore z.2 0 cutoff).1)), st.hashes⟩,
   (st.zsets.map (fun z => (zremrangebyscore z.2 0 cutoff).2)).sum)

/-- The upload request fields of `upload` (`core/routes/api_v2.py`) after
torrent-file parsing: name, hashes and sizes come from the parsed torrent,
season/episode from `extract_season_episode` on the name, identifiers and
artist/album from the (already digit-stripped / normalized) form fields. -/
structure UploadInfo where
  torrent_name : String
  season : Option Int
  episode : Option Int
  imdbid : Option Int
  tmdbid : Option Int
  tvdbid : Option Int
  artist : Option String
  album : Option String
  size : Nat
  category : Int
  hash_v1 : String
  hash_v2 : String
  files : Nat
  deriving DecidableEq, Repr

/-- Outcome of an upload: HTTP 409 (`conflict`) or HTTP 200 (`success`). -/
inductive UploadOutcome where
  | conflict : UploadOutcome
  | success : UploadOutcome
  deriving DecidableEq, Repr

/-- The dedup predicate of the upload handler:
`SELECT ... WHERE hash_v1=%s OR hash_v2=%s`. -/
def hashMatches (h1 h2 : String) (r : Torrent) : Bool :=
  r.hash_v1 == h1 || r.hash_v2 == h2

/-- `fetch_one` of the dedup query: the first matching row, if any. -/
def findExisting (db : List Torrent) (h1 h2 : String) : Option Torrent :=
  db.find? (hashMatches h1 h2)

/-- The `UPDATE torrents SET name = ..., last_seen = NOW() WHERE id = ...`
run on a re-upload by the original uploader: overwrite the mutable
metadata fields in place. -/
def applyReupload (info : UploadInfo) (now : Nat) (r : Torrent) : Torrent :=
  { r with
    name := info.torrent_name
    normalized_name := clean_text_filter info.torrent_name
    hash_v1 := info.hash_v1
    hash_v2 := info.hash_v2
    hash_v2_trunc := info.hash_v2.take 40
    season := info.season
    episode := info.episode
    imdbid := info.imdbid
    tmdbid := info.tmdbid
    tvdbid := info.tvdbid
    artist := info.artist
    album := info.album
    last_seen := now }

/-- The `INSERT INTO torrents ...` of a fresh upload. -/
def newTorrentRow (info : UploadInfo) (uid : Nat) (newId now : Nat) : Torrent :=
  { id := newId
    name := info.torrent_name
    normalized_name := clean_text_filter info.torrent_name
    season := info.season
    episode := info.episode
    imdbid := info.imdbid
    tmdbid := info.tmdbid
    tvdbid := info.tvdbid
    artist := info.artist
    album := info.album
    size := info.size
    category := info.category
    hash_v1 := info.hash_v1
    hash_v2 := info.hash_v2
    hash_v2_trunc := info.hash_v2.take 40
    files := info.files
    grabs := 0
    added_on := now
    added_by_user_id := some uid
    last_seen := now
    torrent_path := none }

/-- The dedup section of `upload` (`core/routes/api_v2.py`): if a row with
either content hash exists, the handler raises HTTP 409 — after first
overwriting the existing row's metadata in place when (and only when) the
uploader is the original uploader; otherwise the row is inserted. -/
def uploadTorrent (db : List Torrent) (info : UploadInfo) (uid : Nat)
    (newId now : Nat) : UploadOutcome × List Torrent :=
  match findExisting db info.hash_v1 info.hash_v2 with
  | some existing =>
      if existing.added_by_user_id == some uid then
        (.conflict,
         db.map (fun r => if r.id == existing.id then applyReupload info now r
                          else r))
      else (.conflict, db)
  | none => (.success, db ++ [newTorrentRow info uid newId now])

/-- The Python truthiness-guarded existence check of the reconciler:
`if torrent_path and os.path.exists(torrent_path)`. `onDisk` is the
injected filesystem collaborator. -/
def pathOK (onDisk : String → Bool) (r : Torrent) : Bool :=
  match r.torrent_path with
  | some p => (p != "") && onDisk p
  | none => false

/-- Modelled from the spec: `utils.find_matching_torrent` is called by
`check_torrent_database` but is absent from the source tree. Per the spec
(§4.2, §6) it scans the torrent-storage directory, recomputes each file's
content-hash pair, and returns a path whose recomputed hash matches the
row's hash, together with the row's modern hash for keying the repair.
`storage` is the injected directory listing as `(path, hash_v1, hash_v2)`
triples of recomputed hashes. -/
def find_matching_torrent (storage : List (String × String × String))
    (h1 h2 : String) : Option String × String :=
  ((storage.find? (fun f => f.2.1 == h1 || f.2.2 == h2)).map (fun f => f.1), h2)

/-- What one reconciliation item does to its row. -/
inductive RowAction where
  | untouched : RowAction
  | pathUpdated (newPath : String) : RowAction
  | deleted : RowAction
  | failed : RowAction
  deriving DecidableEq, Repr

/-- The decision `check_torrent_database` (`core/database_check.py`) takes
for one row: skip rows whose stored path exists; otherwise run the hash
scan (`hashLookup`, possibly raising) and either repair the path, purge
the row, or — when the item raised — catch and log, touching nothing. -/
def rowVerdict (onDisk : String → Bool)
    (hashLookup : Torrent → Except String (Option String × String))
    (r : Torrent) : RowAction :=
  if pathOK onDisk r then .untouched
  else
    match hashLookup r with
    | Except.ok (some newPath, _) => .pathUpdated newPath
    | Except.ok (none, _) => .deleted
    | Except.error _ => .failed

/-- The row a reconciliation action leaves behind (`none` = purged). -/
def applyVerdict (a : RowAction) (r : Torrent) : Option Torrent :=
  match a with
  | .untouched => some r
  | .failed => some r
  | .pathUpdated p => some { r with torrent_path := some p }
  | .deleted => none

/-- One iteration of the reconciliation loop over the live table: the
`UPDATE ... WHERE hash_v2 = %s` / `DELETE ... WHERE hash_v2 = %s` executed
for row `r`, keyed by the hash returned from the scan; a caught per-item
error leaves the state unchanged. -/
def reconcileStep (onDisk : String → Bool)
    (hashLookup : Torrent → Except String (Option String × String))
    (acc : List Torrent × Nat × Nat) (r : Torrent) :
    List Torrent × Nat × Nat :=
  if pathOK onDisk r then acc
  else
    match hashLookup r with
    | Except.ok (some newPath, h2) =>
        (acc.1.map (fun x => if x.hash_v2 == h2 then
                               { x with torrent_path := some newPath }
                             else x),
         acc.2.1 + 1, acc.2.2)
    | Except.ok (none, h2) =>
        (acc.1.filter (fun x => !(x.hash_v2 == h2)), acc.2.1, acc.2.2 + 1)
    | Except.error _ => acc

/-- The result of one reconciliation sweep: the table afterwards and the
returned counts `(total examined, repaired, removed)`. -/
structure SweepResult where
  db : List Torrent
  total : Nat
  updated : Nat
  removed : Nat
  deriving DecidableEq, Repr

/-- `check_torrent_database` (`core/database_check.py`): fetch all rows,
process each one tolerating per-item failure, and return the counts. -/
def check_torrent_database (onDisk : String → Bool)
    (hashLookup : Torrent → Except String (Option String × String))
    (db : List Torrent) : SweepResult :=
  let res := db.foldl (reconcileStep onDisk hashLookup) (db, 0, 0)
  ⟨res.1, db.length, res.2.1, res.2.2⟩

/-! ## Shared helper definitions and lemmas -/

/-- The category clause as it constrains a row (`TRUE` when no category
list was supplied). -/
def catClauseOpt (c : Option (List Int)) (r : Torrent) : Bool :=
  match c with
  | some cs => catClause cs r
  | none => true

/-- The ownership clause as it constrains a row (`TRUE` when the caller
asked to include their own uploads). -/
def ownClauseOpt (include_my : Bool) (uid : Nat) (r : Torrent) : Bool :=
  include_my || notOwnClause uid r

/-- The underlying (pre-enrichment) page of rows a torznab search request
returns, for either branch. -/
def pageOf (db : List Torrent) (uid : Nat) (p : SearchParams) : List Torrent :=
  if p.t = "search" ∧ isBlank p.q = true then rssPageRows db uid p
  else searchPageRows db uid p

theorem enrichRow_fst (fetch : Nat → Except String (Nat × Nat)) (r : Torrent) :
    (enrichRow fetch r).1 = r := by
  unfold enrichRow
  cases fetch r.id <;> rfl

theorem sortRows_perm (l : List Torrent) : (sortRows l).Perm l :=
  List.perm_insertionSort addedOnGE l

theorem sortRows_length (l : List Torrent) : (sortRows l).length = l.length :=
  (sortRows_perm l).length_eq

theorem sortRows_sorted (l : List Torrent) : (sortRows l).Sorted addedOnGE :=
  List.sorted_insertionSort addedOnGE l

/-- C9: a `search` request whose text query is blank takes the catalog-feed
branch: the result is the RSS feed page, the rows are constrained only by
the ownership and category clauses (no text predicate), and the page is
ordered newest-first by `added_on`. -/
theorem catalog_feed_mode (db : List Torrent)
    (fetch : Nat → Except String (Nat × Nat)) (uid : Nat) (p : SearchParams)
    (hT : p.t = "search") (hQ : isBlank p.q = true) :
    torznab db fetch uid p = .rssFeed ((rssPageRows db uid p).map (enrichRow fetch))
    ∧ (∀ r, rssMatches uid p r
        = (ownClauseOpt p.include_my_uploads uid r && catClauseOpt p.cat r))
    ∧ (rssPageRows db uid p).Sorted addedOnGE := by
  refine ⟨?_, ?_, ?_⟩
  · simp [torznab, hT, hQ]
  · intro r
    unfold rssMatches rssClauses ownClauseOpt catClauseOpt
    cases p.include_my_uploads <;> cases p.cat <;>
      simp [List.all_append]
  · unfold rssPageRows
    exact List.Pairwise.sublist
      ((List.take_sublist _ _).trans (List.drop_sublist _ _))
      (sortRows_sorted _)

/-- C9 witness: a concrete blank-query search takes the catalog branch. -/
def wFeedParams : SearchParams :=
  { t := "search", q := " ", cat := some [2000], season := none, ep := none,
    imdbid := none, tmdbid := none, tvdbid := none, artist := none,
    album := none, limit := 100, offset := 0, include_my_uploads := false }

theorem catalog_feed_mode_witness :
    torznab [] (fun _ => Except.error "down") 4 wFeedParams
      = .rssFeed ((rssPageRows [] 4 wFeedParams).map
          (enrichRow (fun _ => Except.error "down"))) :=
  (catalog_feed_mode [] (fun _ => Except.error "down") 4 wFeedParams rfl (by decide)).1

/-- C7: for any swarm-stats collaborator `fetch` — including one that fails
on every row — a valid search request still produces a response whose item
list is exactly the matched page: the underlying rows are independent of
`fetch`, every row of the page appears, and a row whose fetch failed is
carried with seeders and leechers both zero. -/
theorem swarm_stats_degrade_to_zero (db : List Torrent)
    (fetch : Nat → Except String (Nat × Nat)) (uid : Nat) (p : SearchParams)
    (hT : p.t = "search" ∨ p.t = "tvsearch" ∨ p.t = "movie" ∨ p.t = "music") :
    (torznab db fetch uid p).items?
      = some ((pageOf db uid p).map (enrichRow fetch))
    ∧ ((pageOf db uid p).map (enrichRow fetch)).map Prod.fst = pageOf db uid p
    ∧ (∀ r : Torrent, ∀ e : String,
        fetch r.id = Except.error e → enrichRow fetch r = (r, 0, 0)) := by
  refine ⟨?_, ?_, ?_⟩
  · have hcaps : p.t ≠ "caps" := by
      rcases hT with h | h | h | h <;> simp [h]
    unfold torznab pageOf
    rw [if_neg hcaps, if_pos hT]
    by_cases hrss : p.t = "search" ∧ isBlank p.q = true
    · rw [if_pos hrss, if_pos hrss]; rfl
    · rw [if_neg hrss, if_neg hrss]; rfl
  · rw [List.map_map]
    exact List.map_congr_left (fun r _ => enrichRow_fst fetch r) |>.trans
      (List.map_id _)
  · intro r e he
    simp [enrichRow, he]

/-- C7 witness: with an always-failing swarm store, the single matching row
is still returned, with zeroed counts. -/
def wRow7 : Torrent :=
  { id := 11, name := "B", normalized_name := "b", season := none,
    episode := none, imdbid := none, tmdbid := none, tvdbid := none,
    artist := none, album := none, size := 5, category := 2000,
    hash_v1 := "h1b", hash_v2 := "h2b", hash_v2_trunc := "h1b", files := 1,
    grabs := 0, added_on := 3, added_by_user_id := some 2, last_seen := 3,
    torrent_path := none }

def wParams7 : SearchParams :=
  { t := "movie", q := "", cat := none, season := none, ep := none,
    imdbid := none, tmdbid := none, tvdbid := none, artist := none,
    album := none, limit := 10, offset := 0, include_my_uploads := true }

theorem swarm_stats_degrade_to_zero_witness :
    (torznab [wRow7] (fun _ => Except.error "redis down") 1 wParams7).items?
      = some ((pageOf [wRow7] 1 wParams7).map
          (enrichRow (fun _ => Except.error "redis down")))
    ∧ enrichRow (fun _ => Except.error "redis down") wRow7 = (wRow7, 0, 0) :=
  ⟨(swarm_stats_degrade_to_zero [wRow7] (fun _ => Except.error "redis down") 1
      wParams7 (by decide)).1,
   (swarm_stats_degrade_to_zero [wRow7] (fun _ => Except.error "redis down") 1
      wParams7 (by decide)).2.2 wRow7 "redis down" rfl⟩

/-- The identifier disjunction as it constrains a row (`TRUE` when no
identifier clause was generated). -/
def idOrApplied (p : SearchParams) (r : Torrent) : Bool :=
  if (idOrClauses p).isEmpty then true else (idOrClauses p).any (fun c => c r)

theorem allOwn (uid : Nat) (b : Bool) (r : Torrent) :
    ((if b then ([] : List (Torrent → Bool)) else [notOwnClause uid]).all
      (fun c => c r)) = ownClauseOpt b uid r := by
  cases b <;> simp [ownClauseOpt]

theorem allCat (c : Option (List Int)) (r : Torrent) :
    ((match c with
      | some cs => [catClause cs]
      | none => ([] : List (Torrent → Bool))).all (fun cl => cl r))
      = catClauseOpt c r := by
  cases c <;> simp [catClauseOpt]

theorem allIds (p : SearchParams) (r : Torrent) :
    ((if (idOrClauses p).isEmpty then ([] : List (Torrent → Bool))
      else [fun r : Torrent => (idOrClauses p).any (fun c => c r)]).all
      (fun c => c r)) = idOrApplied p r := by
  by_cases h : (idOrClauses p).isEmpty <;> simp [idOrApplied, h]

/-- C3: in a TV search carrying a season, the assembled predicate demands
season equality and — when no episode was supplied — `episode IS NULL`, so
season-pack rows (episode `NULL`) match and concrete-episode rows are
rejected; when an episode is supplied the predicate instead demands
episode equality. -/
theorem tvsearch_season_pack (uid : Nat) (p : SearchParams) (r : Torrent)
    (s : Int) (hT : p.t = "tvsearch") (hS : p.season = some s) :
    (p.ep = none →
      matchesSearch uid p r
        = (ownClauseOpt p.include_my_uploads uid r && textClause p.q r
            && catClauseOpt p.cat r && (r.season == some s)
            && (r.episode == none) && (r.artist == none) && (r.album == none)
            && idOrApplied p r))
    ∧ (∀ e : Int, p.ep = some e →
      matchesSearch uid p r
        = (ownClauseOpt p.include_my_uploads uid r && textClause p.q r
            && catClauseOpt p.cat r && (r.season == some s)
            && (r.episode == some e) && (r.artist == none) && (r.album == none)
            && idOrApplied p r))
    ∧ (p.ep = none → ∀ e : Int, r.episode = some e →
        matchesSearch uid p r = false) := by
  have hcase1 : p.ep = none →
      matchesSearch uid p r
        = (ownClauseOpt p.include_my_uploads uid r && textClause p.q r
            && catClauseOpt p.cat r && (r.season == some s)
            && (r.episode == none) && (r.artist == none) && (r.album == none)
            && idOrApplied p r) := by
    intro hEp
    unfold matchesSearch whereClauses tvClauses
    rw [hT, hS, hEp]
    simp only [reduceIte, List.all_append, List.all_cons, List.all_nil,
      Bool.and_true, allOwn, allCat, allIds]
    ac_rfl
  refine ⟨hcase1, ?_, ?_⟩
  · intro e hEp
    unfold matchesSearch whereClauses tvClauses
    rw [hT, hS, hEp]
    simp only [reduceIte, List.all_append, List.all_cons, List.all_nil,
      Bool.and_true, allOwn, allCat, allIds]
    ac_rfl
  · intro hEp e hre
    rw [hcase1 hEp]
    simp [hre]

/-- C3 witness: with `season=2` and no episode, a row with `episode=5` is
rejected and a season-pack row is matched. -/
def wTvParams : SearchParams :=
  { t := "tvsearch", q := "", cat := none, season := some 2, ep := none,
    imdbid := none, tmdbid := none, tvdbid := none, artist := none,
    album := none, limit := 100, offset := 0, include_my_uploads := true }

def wEp5 : Torrent :=
  { id := 21, name := "Show S02E05", normalized_name := "shows02e05",
    season := some 2, episode := some 5, imdbid := none, tmdbid := none,
    tvdbid := none, artist := none, album := none, size := 1,
    category := 5000, hash_v1 := "e1", hash_v2 := "e2", hash_v2_trunc := "e1",
    files := 1, grabs := 0, added_on := 1, added_by_user_id := some 2,
    last_seen := 1, torrent_path := none }

def wPack : Torrent :=
  { id := 22, name := "Show S02", normalized_name := "shows02",
    season := some 2, episode := none, imdbid := none, tmdbid := none,
    tvdbid := none, artist := none, album := none, size := 1,
    category := 5000, hash_v1 := "f1", hash_v2 := "f2", hash_v2_trunc := "f1",
    files := 1, grabs := 0, added_on := 1, added_by_user_id := some 2,
    last_seen := 1, torrent_path := none }

theorem tvsearch_season_pack_witness :
    matchesSearch 1 wTvParams wEp5 = false
    ∧ matchesSearch 1 wTvParams wPack = true :=
  ⟨(tvsearch_season_pack 1 wTvParams wEp5 2 rfl rfl).2.2 rfl 5 rfl, by decide⟩

/-- The type-specific clause block of the search predicate, applied to a
row. -/
def typeClausesApplied (p : SearchParams) (r : Torrent) : Bool :=
  (if p.t = "tvsearch" then tvClauses p
   else if p.t = "movie" then movieClauses
   else if p.t = "music" then musicClauses p
   else ([] : List (Torrent → Bool))).all (fun c => c r)

/-- The OR of the supplied external-identifier equalities on a row. -/
def idDisj (p : SearchParams) (r : Torrent) : Bool :=
  (idTruthy p.imdbid && (r.imdbid == p.imdbid))
    || ((idTruthy p.tmdbid && (r.tmdbid == p.tmdbid))
        || (idTruthy p.tvdbid && (r.tvdbid == p.tvdbid)))

theorem idOrApplied_eq_idDisj (p : SearchParams) (r : Torrent)
    (hSome : (idTruthy p.imdbid || idTruthy p.tmdbid || idTruthy p.tvdbid)
      = true) :
    idOrApplied p r = idDisj p r := by
  cases h1 : idTruthy p.imdbid <;> cases h2 : idTruthy p.tmdbid <;>
    cases h3 : idTruthy p.tvdbid <;>
    simp_all [idOrApplied, idOrClauses, idDisj]

/-- C8: when at least one external identifier is supplied (truthy), the
search predicate is the conjunction of every non-identifier clause
(ownership, text, category, type-specific) with the OR of the supplied
identifier equalities: a row matches exactly when it satisfies some one
supplied identifier together with all other predicates. -/
theorem external_ids_or_semantics (uid : Nat) (p : SearchParams) (r : Torrent)
    (hSome : (idTruthy p.imdbid || idTruthy p.tmdbid || idTruthy p.tvdbid)
      = true) :
    matchesSearch uid p r
      = (ownClauseOpt p.include_my_uploads uid r && textClause p.q r
          && catClauseOpt p.cat r && typeClausesApplied p r && idDisj p r) := by
  unfold matchesSearch whereClauses typeClausesApplied
  simp only [List.all_append, List.all_cons, List.all_nil, Bool.and_true,
    allOwn, allCat, allIds]
  rw [idOrApplied_eq_idDisj p r hSome]

/-- C8 witness: a row matching one of two supplied identifiers, combined
with the other clauses. -/
def wIdParams : SearchParams :=
  { t := "movie", q := "", cat := none, season := none, ep := none,
    imdbid := some 99, tmdbid := some 123, tvdbid := none, artist := none,
    album := none, limit := 100, offset := 0, include_my_uploads := true }

def wIdRow : Torrent :=
  { id := 31, name := "M", normalized_name := "m", season := none,
    episode := none, imdbid := some 99, tmdbid := some 7, tvdbid := none,
    artist := none, album := none, size := 1, category := 2000,
    hash_v1 := "g1", hash_v2 := "g2", hash_v2_trunc := "g1", files := 1,
    grabs := 0, added_on := 1, added_by_user_id := some 2, last_seen := 1,
    torrent_path := none }

theorem external_ids_or_semantics_witness :
    matchesSearch 1 wIdParams wIdRow
      = (ownClauseOpt wIdParams.include_my_uploads 1 wIdRow
          && textClause wIdParams.q wIdRow && catClauseOpt wIdParams.cat wIdRow
          && typeClausesApplied wIdParams wIdRow && idDisj wIdParams wIdRow) :=
  external_ids_or_semantics 1 wIdParams wIdRow (by decide)

/-- A torrent matched by `cexParams` below. -/
def cexRow : Torrent :=
  { id := 41, name := "T", normalized_name := "t", season := none,
    episode := none, imdbid := none, tmdbid := none, tvdbid := none,
    artist := none, album := none, size := 1, category := 5000,
    hash_v1 := "k1", hash_v2 := "k2", hash_v2_trunc := "k1", files := 1,
    grabs := 0, added_on := 1, added_by_user_id := some 2, last_seen := 1,
    torrent_path := none }

/-- A TV search whose offset lies past the single matching row. -/
def cexParams : SearchParams :=
  { t := "tvsearch", q := "", cat := none, season := none, ep := none,
    imdbid := none, tmdbid := none, tvdbid := none, artist := none,
    album := none, limit := 100, offset := 1, include_my_uploads := true }

/-- C1 counterexample: one row matches the filter, yet with `offset = 1`
(past the last matching row) the handler reports `total_matches = 0` — the
reported total is *not* independent of the offset, because it is read from
`results[0]` and the page is empty. -/
theorem total_matches_offset_counterexample :
    (searchMatching [cexRow] 1 cexParams).length = 1
    ∧ torznab [cexRow] (fun _ => Except.ok (0, 0)) 1 cexParams
        = .searchResult [] 0 := by
  constructor <;> rfl

/-- C1 (amended): when the returned page is nonempty — in particular for
any offset below the match count and any positive limit — the reported
`total_matches` equals the count of rows satisfying the filter predicate,
taken from the same single filtered snapshot as the page; but whenever the
offset is at or past the last matching row the handler reports 0 instead. -/
theorem total_matches_amended (db : List Torrent)
    (fetch : Nat → Except String (Nat × Nat)) (uid : Nat) (p : SearchParams)
    (hT : p.t = "tvsearch" ∨ p.t = "movie" ∨ p.t = "music"
          ∨ (p.t = "search" ∧ isBlank p.q = false))
    (hOff : p.offset < (searchMatching db uid p).length)
    (hLim : 0 < p.limit) :
    torznab db fetch uid p
      = .searchResult ((searchPageRows db uid p).map (enrichRow fetch))
          ((searchMatching db uid p).length)
    ∧ (∀ p' : SearchParams,
        (searchMatching db uid p').length ≤ p'.offset →
        totalReported db uid p' = 0) := by
  constructor
  · have hlen : 0 < (searchPageRows db uid p).length := by
      unfold searchPageRows
      rw [List.length_take, List.length_drop, sortRows_length]
      exact lt_min (lt_min hLim (by norm_num)) (Nat.sub_pos_of_lt hOff)
    have hne : ¬((searchPageRows db uid p).isEmpty = true) := by
      rw [List.isEmpty_iff]
      intro hnil
      rw [hnil] at hlen
      exact absurd hlen (by simp)
    have htot : totalReported db uid p = (searchMatching db uid p).length := by
      unfold totalReported
      rw [if_neg hne]
    have hcaps : ¬(p.t = "caps") := by
      rcases hT with h | h | h | h
      · simp [h]
      · simp [h]
      · simp [h]
      · simp [h.1]
    have hmem : p.t = "search" ∨ p.t = "tvsearch" ∨ p.t = "movie"
        ∨ p.t = "music" := by
      rcases hT with h | h | h | h
      · exact Or.inr (Or.inl h)
      · exact Or.inr (Or.inr (Or.inl h))
      · exact Or.inr (Or.inr (Or.inr h))
      · exact Or.inl h.1
    have hrss : ¬(p.t = "search" ∧ isBlank p.q = true) := by
      rcases hT with h | h | h | h
      · simp [h]
      · simp [h]
      · simp [h]
      · simp [h.2]
    unfold torznab
    rw [if_neg hcaps, if_pos hmem, if_neg hrss, htot]
  · intro p' h
    unfold totalReported searchPageRows
    rw [List.drop_eq_nil_of_le (by rw [sortRows_length]; exact h)]
    simp

/-- C1 amended witness: at offset 0 the same single-row search reports the
true count 1. -/
def wC1Params : SearchParams :=
  { t := "tvsearch", q := "", cat := none, season := none, ep := none,
    imdbid := none, tmdbid := none, tvdbid := none, artist := none,
    album := none, limit := 100, offset := 0, include_my_uploads := true }

theorem total_matches_amended_witness :
    torznab [cexRow] (fun _ => Except.ok (0, 0)) 1 wC1Params
      = .searchResult ((searchPageRows [cexRow] 1 wC1Params).map
          (enrichRow (fun _ => Except.ok (0, 0))))
          ((searchMatching [cexRow] 1 wC1Params).length) :=
  (total_matches_amended [cexRow] (fun _ => Except.ok (0, 0)) 1 wC1Params
    (by decide) (by decide) (by decide)).1

/-- `find?` returns the unique element satisfying the predicate. -/
theorem find?_eq_of_mem_unique {α : Type _} (p : α → Bool) :
    ∀ (l : List α) (a : α), a ∈ l → p a = true →
      (∀ b ∈ l, p b = true → b = a) → l.find? p = some a := by
  intro l
  induction l with
  | nil => intro a ha; cases ha
  | cons x xs ih =>
    intro a ha hpa huniq
    by_cases hx : p x = true
    · rw [List.find?_cons_of_pos _ hx, huniq x (List.mem_cons_self _ _) hx]
    · have ha' : a ∈ xs := by
        rcases List.mem_cons.mp ha with he | hm
        · exact absurd (he ▸ hpa) hx
        · exact hm
      rw [List.find?_cons_of_neg _ hx]
      exact ih a ha' hpa (fun b hb hpb => huniq b (List.mem_cons_of_mem _ hb) hpb)

/-- In a list with pairwise-distinct `id`s containing `r`, exactly one
element carries `r`'s id. -/
theorem countP_id_unique (db : List Torrent) (r : Torrent)
    (hPW : db.Pairwise (fun a b => a.id ≠ b.id)) (hr : r ∈ db) :
    db.countP (fun x => x.id == r.id) = 1 := by
  induction db with
  | nil => cases hr
  | cons x xs ih =>
    rcases List.pairwise_cons.mp hPW with ⟨hx, hxs⟩
    rcases List.mem_cons.mp hr with he | hm
    · subst he
      rw [List.countP_cons]
      have h0 : xs.countP (fun x => x.id == r.id) = 0 := by
        rw [List.countP_eq_zero]
        intro b hb hbe
        have hbe' : b.id = r.id := by simpa using hbe
        exact (hx b hb) hbe'.symm
      simp [h0]
    · rw [List.countP_cons]
      have hxne : ¬((x.id == r.id) = true) := by
        simpa using hx r hm
      rw [ih hxs hm]
      simp [hxne]

/-- The schema invariants of the `torrents` table: `PRIMARY KEY (id)`,
`UNIQUE KEY hash_v1`, `UNIQUE KEY hash_v2`. -/
def dbWellFormed (db : List Torrent) : Prop :=
  db.Pairwise (fun a b => a.id ≠ b.id ∧ a.hash_v1 ≠ b.hash_v1
    ∧ a.hash_v2 ≠ b.hash_v2)

/-- C10: whenever the dedup query finds an existing row with either content
hash, `upload` raises HTTP 409 regardless of who uploads — and in the
original-uploader case the in-place metadata update has already been
applied to the store when the conflict is raised (the conflict outcome is
not atomic); a different uploader leaves the store untouched. -/
theorem upload_conflict_after_update (db : List Torrent) (info : UploadInfo)
    (uid newId now : Nat) (r : Torrent)
    (hFind : findExisting db info.hash_v1 info.hash_v2 = some r) :
    (uploadTorrent db info uid newId now).1 = .conflict
    ∧ (r.added_by_user_id = some uid →
        (uploadTorrent db info uid newId now).2
          = db.map (fun x => if x.id == r.id then applyReupload info now x
                             else x))
    ∧ (¬(r.added_by_user_id = some uid) →
        (uploadTorrent db info uid newId now).2 = db) := by
  by_cases h : r.added_by_user_id = some uid
  · have hb : (r.added_by_user_id == some uid) = true := by simpa using h
    simp only [uploadTorrent, hFind, hb, reduceIte]
    simp [h]
  · have hb : (r.added_by_user_id == some uid) = false := by simpa using h
    simp only [uploadTorrent, hFind, hb, reduceIte]
    simp [h]

/-- C10 witness: a concrete re-upload by the original uploader yields the
conflict outcome with the update already applied. -/
def wUpRow : Torrent :=
  { id := 51, name := "Old", normalized_name := "old", season := none,
    episode := none, imdbid := none, tmdbid := none, tvdbid := none,
    artist := none, album := none, size := 9, category := 2000,
    hash_v1 := "aa", hash_v2 := "bb", hash_v2_trunc := "aa", files := 1,
    grabs := 3, added_on := 7, added_by_user_id := some 2, last_seen := 7,
    torrent_path := some "/t/bb.torrent" }

def wUpInfo : UploadInfo :=
  { torrent_name := "New Name", season := some 1, episode := some 2,
    imdbid := some 9, tmdbid := none, tvdbid := none, artist := none,
    album := none, size := 9, category := 2000, hash_v1 := "aa",
    hash_v2 := "bb", files := 1 }

theorem upload_conflict_after_update_witness :
    (uploadTorrent [wUpRow] wUpInfo 2 99 50).1 = .conflict
    ∧ (uploadTorrent [wUpRow] wUpInfo 2 99 50).2
        = [wUpRow].map (fun x => if x.id == wUpRow.id
                                 then applyReupload wUpInfo 50 x else x) :=
  ⟨(upload_conflict_after_update [wUpRow] wUpInfo 2 99 50 wUpRow rfl).1,
   (upload_conflict_after_update [wUpRow] wUpInfo 2 99 50 wUpRow rfl).2.1 rfl⟩

/-- C2: given a store satisfying the schema invariants and a row `r` that
is the unique carrier of the uploaded content hash: a second upload by a
different user is rejected as a conflict with the store left untouched,
while a second upload by the original uploader overwrites `r`'s mutable
metadata fields in place — the store keeps its length (no duplicate row)
and afterwards exactly one row carries the uploaded hash pair. -/
theorem upload_dedup_in_place (db : List Torrent) (info : UploadInfo)
    (uid newId now : Nat) (r : Torrent)
    (hWF : dbWellFormed db) (hr : r ∈ db)
    (hMatch : hashMatches info.hash_v1 info.hash_v2 r = true)
    (hOnly : ∀ r' ∈ db, hashMatches info.hash_v1 info.hash_v2 r' = true →
      r' = r) :
    (¬(r.added_by_user_id = some uid) →
        uploadTorrent db info uid newId now = (.conflict, db))
    ∧ (r.added_by_user_id = some uid →
        (uploadTorrent db info uid newId now).2
            = db.map (fun x => if x.id == r.id then applyReupload info now x
                               else x)
        ∧ ((uploadTorrent db info uid newId now).2).length = db.length
        ∧ applyReupload info now r ∈ (uploadTorrent db info uid newId now).2
        ∧ ((uploadTorrent db info uid newId now).2.filter
            (hashMatches info.hash_v1 info.hash_v2)).length = 1) := by
  have hFind : findExisting db info.hash_v1 info.hash_v2 = some r :=
    find?_eq_of_mem_unique _ db r hr hMatch hOnly
  have hmain := upload_conflict_after_update db info uid newId now r hFind
  constructor
  · intro hn
    have h2 := hmain.2.2 hn
    have h1 := hmain.1
    exact Prod.ext h1 h2
  · intro hs
    have hmap := hmain.2.1 hs
    refine ⟨hmap, by rw [hmap, List.length_map], ?_, ?_⟩
    · rw [hmap]
      exact List.mem_map.mpr ⟨r, hr, by simp⟩
    · rw [hmap, ← List.countP_eq_length_filter, List.countP_map]
      have hcong : db.countP
          ((fun x => hashMatches info.hash_v1 info.hash_v2 x)
            ∘ (fun x => if x.id == r.id then applyReupload info now x else x))
          = db.countP (fun x => x.id == r.id) := by
        apply List.countP_congr
        intro x hx
        by_cases hid : (x.id == r.id) = true
        · simp only [Function.comp, hid, reduceIte]
          constructor
          · intro _; trivial
          · intro _
            simp [applyReupload, hashMatches]
        · simp only [Function.comp, hid, reduceIte]
          constructor
          · intro hm
            exact absurd (congrArg Torrent.id (hOnly x hx hm)) (by simpa using hid)
          · intro hfalse
            exact absurd hfalse (by simp)
      rw [hcong]
      exact countP_id_unique db r
        (hWF.imp (fun h => h.1)) hr

/-- A second, unrelated row for the C2 witness store. -/
def wOther : Torrent :=
  { id := 52, name := "Other", normalized_name := "other", season := none,
    episode := none, imdbid := none, tmdbid := none, tvdbid := none,
    artist := none, album := none, size := 4, category := 3000,
    hash_v1 := "cc", hash_v2 := "dd", hash_v2_trunc := "cc", files := 1,
    grabs := 0, added_on := 8, added_by_user_id := some 3, last_seen := 8,
    torrent_path := some "/t/dd.torrent" }

theorem upload_dedup_in_place_witness :
    ((uploadTorrent [wUpRow, wOther] wUpInfo 2 99 50).2).length
        = ([wUpRow, wOther] : List Torrent).length
    ∧ ((uploadTorrent [wUpRow, wOther] wUpInfo 2 99 50).2.filter
        (hashMatches wUpInfo.hash_v1 wUpInfo.hash_v2)).length = 1 :=
  ⟨((upload_dedup_in_place [wUpRow, wOther] wUpInfo 2 99 50 wUpRow
      (by unfold dbWellFormed; decide) (by decide) (by decide) (by decide)).2
      rfl).2.1,
   ((upload_dedup_in_place [wUpRow, wOther] wUpInfo 2 99 50 wUpRow
      (by unfold dbWellFormed; decide) (by decide) (by decide) (by decide)).2
      rfl).2.2.2⟩

/-- The seeder/leecher accumulation of `get_seeders_and_leechers`, expressed
as counts over the classified window peers. -/
theorem seedersFold (st : SwarmState) (tid : Nat) :
    ∀ (pids : List String) (a b : Nat),
      pids.foldl (fun acc pid =>
        match st.hashOf tid pid with
        | none => acc
        | some pd => if pd.left.getD 1 == 0 then (acc.1 + 1, acc.2)
                     else (acc.1, acc.2 + 1)) (a, b)
      = (a + ((pids.filterMap (st.hashOf tid)).countP
            (fun pd => pd.left.getD 1 == 0)),
         b + ((pids.filterMap (st.hashOf tid)).countP
            (fun pd => !(pd.left.getD 1 == 0)))) := by
  intro pids
  induction pids with
  | nil => intro a b; simp
  | cons pid rest ih =>
    intro a b
    rw [List.foldl_cons]
    cases h : st.hashOf tid pid with
    | none =>
        simp only [h]
        rw [ih]
        simp [List.filterMap_cons, h]
    | some pd =>
        simp only [h]
        by_cases hb : (pd.left.getD 1 == 0) = true
        · simp only [hb, reduceIte]
          rw [ih]
          simp [List.filterMap_cons, h, List.countP_cons, hb]
          omega
        · simp only [hb, reduceIte]
          rw [ih]
          simp [List.filterMap_cons, h, List.countP_cons, hb]
          omega

/-- The per-user accumulation of the stats refresh, expressed as counts
over the peer hashes. -/
theorem userStatsFold (u : Nat) :
    ∀ (hs : List ((Nat × String) × PeerHash)) (a b : Nat),
      hs.foldl (fun acc e =>
        match e.2.user_id, e.2.left with
        | some uid, some l =>
            if uid == u then
              (if l == 0 then (acc.1 + 1, acc.2) else (acc.1, acc.2 + 1))
            else acc
        | _, _ => acc) (a, b)
      = (a + hs.countP (fun e => e.2.user_id == some u && e.2.left == some 0),
         b + hs.countP (fun e => e.2.user_id == some u
              && e.2.left.any (fun l => l != 0))) := by
  intro hs
  induction hs with
  | nil => intro a b; simp
  | cons e rest ih =>
    intro a b
    rw [List.foldl_cons]
    cases hu : e.2.user_id with
    | none =>
        simp only [hu]
        rw [ih]
        simp [List.countP_cons, hu]
    | some uid =>
        cases hl : e.2.left with
        | none =>
            simp only [hu, hl]
            rw [ih]
            simp [List.countP_cons, hu, hl]
        | some l =>
            simp only [hu, hl]
            by_cases huu : (uid == u) = true
            · by_cases hll : (l == 0) = true
              · have hl0 : l = 0 := by simpa using hll
                simp only [huu, hll, reduceIte]
                rw [ih]
                simp [List.countP_cons, hu, hl, huu, hll, hl0]
                omega
              · have hl0 : ¬(l = 0) := by simpa using hll
                simp only [huu, hll, reduceIte]
                rw [ih]
                simp [List.countP_cons, hu, hl, huu, hll, hl0]
                omega
            · simp only [huu, reduceIte]
              rw [ih]
              simp [List.countP_cons, hu, hl, huu]

/-- A swarm store holding one peer of torrent 1, owned by user 7, seeding
(`left = 0`), whose `last_seen` score 899 is older than the cutoff
`1000 - 100 = 900`. -/
def staleSwarm : SwarmState :=
  { zsets := [(1, [("p", 899)])],
    hashes := [((1, "p"), { user_id := some 7, left := some 0 })] }

/-- C4 counterexample: the stale peer is excluded from the per-torrent
seeder/leecher counts (time-window predicate), but the per-user stats
refresh applies no time filter and still counts it as seeding — even after
the peer-expiry sweep has run, since that sweep removes only the
`peers:{tid}` sorted-set entry and leaves the `peer:{tid}:{pid}` hash
behind. -/
theorem stale_peer_counted_in_user_stats :
    ((899 : Int) < 1000 - 100)
    ∧ get_seeders_and_leechers staleSwarm 100 1000 1 = (0, 0)
    ∧ userStats staleSwarm 7 = (1, 0)
    ∧ (peerTimeoutSweep staleSwarm 100 1000).1.hashes = staleSwarm.hashes
    ∧ userStats (peerTimeoutSweep staleSwarm 100 1000).1 7 = (1, 0) := by
  refine ⟨by decide, rfl, rfl, rfl, rfl⟩

/-- C4 (amended): in both swarm aggregations a peer with `left = 0` is
counted as a seeder and one with nonzero `left` as a leecher; peers whose
`last_seen` is older than the timeout are excluded from the per-torrent
counts, whose window holds exactly the peers with score in
`[now - timeout, now]` — but the per-user stats refresh reads only the
peer hashes, with no staleness filter at all (it is unaffected by the
sorted-set scores, which are all the expiry sweep ever deletes). -/
theorem swarm_counts_amended :
    (∀ (zset : List (String × Int)) (lo hi : Int) (pid : String),
       pid ∈ zrangebyscore zset lo hi
         ↔ ∃ sc : Int, (pid, sc) ∈ zset ∧ lo ≤ sc ∧ sc ≤ hi)
    ∧ (∀ (st : SwarmState) (timeout now : Int) (tid : Nat),
        get_seeders_and_leechers st timeout now tid
          = (((zrangebyscore (st.zsetOf tid) (now - timeout) now).filterMap
                (st.hashOf tid)).countP (fun pd => pd.left.getD 1 == 0),
             ((zrangebyscore (st.zsetOf tid) (now - timeout) now).filterMap
                (st.hashOf tid)).countP (fun pd => !(pd.left.getD 1 == 0))))
    ∧ (∀ (st : SwarmState) (u : Nat),
        userStats st u
          = (st.hashes.countP (fun e => e.2.user_id == some u
                && e.2.left == some 0),
             st.hashes.countP (fun e => e.2.user_id == some u
                && e.2.left.any (fun l => l != 0))))
    ∧ (∀ (st : SwarmState) (u : Nat)
        (z' : List (Nat × List (String × Int))),
        userStats ⟨z', st.hashes⟩ u = userStats st u)
    ∧ (∀ (st : SwarmState) (timeout now : Int),
        (peerTimeoutSweep st timeout now).1.hashes = st.hashes) := by
  refine ⟨?_, ?_, ?_, fun _ _ _ => rfl, fun _ _ _ => rfl⟩
  · intro zset lo hi pid
    constructor
    · intro hm
      rcases List.mem_map.mp hm with ⟨e, he, hfst⟩
      rcases List.mem_filter.mp he with ⟨hmem, hcond⟩
      refine ⟨e.2, ?_, ?_, ?_⟩
      · rw [← hfst]
        exact hmem
      · exact of_decide_eq_true (Bool.and_elim_left hcond)
      · exact of_decide_eq_true (Bool.and_elim_right hcond)
    · rintro ⟨sc, hmem, hlo, hhi⟩
      exact List.mem_map.mpr ⟨(pid, sc),
        List.mem_filter.mpr ⟨hmem, by simp [hlo, hhi]⟩, rfl⟩
  · intro st timeout now tid
    unfold get_seeders_and_leechers
    rw [seedersFold]
    simp
  · intro st u
    unfold userStats
    rw [userStatsFold]
    simp

/-- C4 amended witness: the characterizations instantiated on the concrete
stale store. -/
theorem swarm_counts_amended_witness :
    userStats staleSwarm 7
      = (staleSwarm.hashes.countP (fun e => e.2.user_id == some 7
            && e.2.left == some 0),
         staleSwarm.hashes.countP (fun e => e.2.user_id == some 7
            && e.2.left.any (fun l => l != 0)))
    ∧ get_seeders_and_leechers staleSwarm 100 1000 1
      = (((zrangebyscore (staleSwarm.zsetOf 1) (1000 - 100) 1000).filterMap
            (staleSwarm.hashOf 1)).countP (fun pd => pd.left.getD 1 == 0),
         ((zrangebyscore (staleSwarm.zsetOf 1) (1000 - 100) 1000).filterMap
            (staleSwarm.hashOf 1)).countP (fun pd => !(pd.left.getD 1 == 0))) :=
  ⟨swarm_counts_amended.2.2.1 staleSwarm 7,
   swarm_counts_amended.2.1 staleSwarm 100 1000 1⟩

/-- Whether a reconciliation action is a path repair. -/
def isUpdateAction : RowAction → Bool
  | .pathUpdated _ => true
  | _ => false

/-- What one sweep does to a live row, given its own verdict. -/
def verdictMap (onDisk : String → Bool)
    (hashLookup : Torrent → Except String (Option String × String))
    (r : Torrent) : Option Torrent :=
  applyVerdict (rowVerdict onDisk hashLookup r) r

/-- The cumulative effect on a live row `x` of the still-pending items
`todo`: the first pending item carrying `x`'s hash (if any) repairs or
purges it. -/
def pendingApply (onDisk : String → Bool)
    (hashLookup : Torrent → Except String (Option String × String))
    (todo : List Torrent) (x : Torrent) : Option Torrent :=
  match todo.find? (fun r => r.hash_v2 == x.hash_v2) with
  | some r =>
      match rowVerdict onDisk hashLookup r with
      | .pathUpdated p => some { x with torrent_path := some p }
      | .deleted => none
      | _ => some x
  | none => some x

theorem pendingApply_nil (onDisk : String → Bool)
    (hashLookup : Torrent → Except String (Option String × String))
    (x : Torrent) : pendingApply onDisk hashLookup [] x = some x := rfl

theorem pendingApply_cons (onDisk : String → Bool)
    (hashLookup : Torrent → Except String (Option String × String))
    (r : Torrent) (todo' : List Torrent) (x : Torrent) :
    pendingApply onDisk hashLookup (r :: todo') x
      = if (r.hash_v2 == x.hash_v2) = true then
          (match rowVerdict onDisk hashLookup r with
           | .pathUpdated p => some { x with torrent_path := some p }
           | .deleted => none
           | _ => some x)
        else pendingApply onDisk hashLookup todo' x := by
  unfold pendingApply
  rw [List.find?_cons]
  by_cases h : (r.hash_v2 == x.hash_v2) = true
  · simp [h]
  · have h' : (r.hash_v2 == x.hash_v2) = false := by simpa using h
    simp [h']

theorem filterMap_filter_eq {α β : Type _} (pr : α → Bool) (f : α → Option β) :
    ∀ l : List α,
      (l.filter pr).filterMap f
        = l.filterMap (fun x => if pr x then f x else none) := by
  intro l
  induction l with
  | nil => rfl
  | cons x xs ih =>
    by_cases h : pr x = true
    · simp [List.filter_cons, h, List.filterMap_cons, ih]
    · simp [List.filter_cons, h, List.filterMap_cons, ih]

/-- Characterization of the reconciliation loop: processing `todo` against
live table `cur` applies, to each live row, the verdict of the pending item
carrying its hash, and accumulates the repair/purge counts — provided the
pending items' hashes are pairwise distinct and the scan returns each row's
own modern hash as repair key. -/
theorem reconcile_foldl_char (onDisk : String → Bool)
    (hashLookup : Torrent → Except String (Option String × String)) :
    ∀ (todo : List Torrent),
      todo.Pairwise (fun a b => a.hash_v2 ≠ b.hash_v2) →
      (∀ r ∈ todo, ∀ res, hashLookup r = Except.ok res → res.2 = r.hash_v2) →
      ∀ (cur : List Torrent) (u v : Nat),
      todo.foldl (reconcileStep onDisk hashLookup) (cur, u, v)
        = (cur.filterMap (pendingApply onDisk hashLookup todo),
           u + todo.countP
             (fun r => isUpdateAction (rowVerdict onDisk hashLookup r)),
           v + todo.countP
             (fun r => rowVerdict onDisk hashLookup r == RowAction.deleted)) := by
  intro todo
  induction todo with
  | nil =>
    intro _ _ cur u v
    have h : pendingApply onDisk hashLookup [] = some :=
      funext (pendingApply_nil onDisk hashLookup)
    simp [h]
  | cons r todo' ih =>
    intro hDist hKey cur u v
    rcases List.pairwise_cons.mp hDist with ⟨hhead, htail⟩
    have hKey' : ∀ b ∈ todo', ∀ res,
        hashLookup b = Except.ok res → res.2 = b.hash_v2 :=
      fun b hb => hKey b (List.mem_cons_of_mem _ hb)
    have hnone : ∀ x : Torrent, r.hash_v2 = x.hash_v2 →
        todo'.find? (fun b => b.hash_v2 == x.hash_v2) = none := by
      intro x hx
      rw [List.find?_eq_none]
      intro b hb
      simp only [Bool.not_eq_true, beq_eq_false_iff_ne, ne_eq]
      intro he
      exact (hhead b hb) (hx.trans he.symm)
    have hpendNone : ∀ x : Torrent, r.hash_v2 = x.hash_v2 →
        pendingApply onDisk hashLookup todo' x = some x := by
      intro x hx
      unfold pendingApply
      rw [hnone x hx]
    rw [List.foldl_cons]
    by_cases hp : pathOK onDisk r = true
    · have hA : rowVerdict onDisk hashLookup r = .untouched := by
        unfold rowVerdict; rw [if_pos hp]
      have hstep : reconcileStep onDisk hashLookup (cur, u, v) r = (cur, u, v) := by
        unfold reconcileStep; rw [if_pos hp]
      rw [hstep, ih htail hKey' cur u v]
      simp only [Prod.mk.injEq]
      refine ⟨?_, ?_, ?_⟩
      · apply List.filterMap_congr
        intro x _
        rw [pendingApply_cons]
        by_cases hxh : (r.hash_v2 == x.hash_v2) = true
        · rw [if_pos hxh, hA, hpendNone x (by simpa using hxh)]
        · rw [if_neg hxh]
      · simp [List.countP_cons, hA, isUpdateAction]
      · simp [List.countP_cons, hA]
    · cases hL : hashLookup r with
      | error e =>
        have hA : rowVerdict onDisk hashLookup r = .failed := by
          unfold rowVerdict; rw [if_neg hp, hL]
        have hstep : reconcileStep onDisk hashLookup (cur, u, v) r
            = (cur, u, v) := by
          unfold reconcileStep; rw [if_neg hp, hL]
        rw [hstep, ih htail hKey' cur u v]
        simp only [Prod.mk.injEq]
        refine ⟨?_, ?_, ?_⟩
        · apply List.filterMap_congr
          intro x _
          rw [pendingApply_cons]
          by_cases hxh : (r.hash_v2 == x.hash_v2) = true
          · rw [if_pos hxh, hA, hpendNone x (by simpa using hxh)]
          · rw [if_neg hxh]
        · simp [List.countP_cons, hA, isUpdateAction]
        · simp [List.countP_cons, hA]
      | ok res =>
        obtain ⟨pOpt, h2⟩ := res
        have hh2 : h2 = r.hash_v2 :=
          hKey r (List.mem_cons_self _ _) (pOpt, h2) hL
        subst hh2
        cases pOpt with
        | some newPath =>
          have hA : rowVerdict onDisk hashLookup r = .pathUpdated newPath := by
            unfold rowVerdict; rw [if_neg hp, hL]
          have hstep : reconcileStep onDisk hashLookup (cur, u, v) r
              = (cur.map (fun x => if x.hash_v2 == r.hash_v2 then
                    { x with torrent_path := some newPath } else x),
                 u + 1, v) := by
            unfold reconcileStep; rw [if_neg hp, hL]
          rw [hstep, ih htail hKey' _ _ _]
          simp only [Prod.mk.injEq]
          refine ⟨?_, ?_, ?_⟩
          · rw [List.filterMap_map]
            apply List.filterMap_congr
            intro x _
            simp only [Function.comp_apply]
            rw [pendingApply_cons]
            by_cases hxh : (r.hash_v2 == x.hash_v2) = true
            · have hxh' : (x.hash_v2 == r.hash_v2) = true := by
                have : r.hash_v2 = x.hash_v2 := by simpa using hxh
                simpa using this.symm
              rw [if_pos hxh, hA]
              rw [show (if (x.hash_v2 == r.hash_v2) = true then
                    { x with torrent_path := some newPath } else x)
                  = { x with torrent_path := some newPath }
                from by rw [if_pos hxh']]
              exact hpendNone _ (by simpa using hxh)
            · have hxh' : (x.hash_v2 == r.hash_v2) = false := by
                have : ¬(r.hash_v2 = x.hash_v2) := by simpa using hxh
                simpa using fun he => this he.symm
              rw [if_neg hxh]
              rw [show (if (x.hash_v2 == r.hash_v2) = true then
                    { x with torrent_path := some newPath } else x) = x
                from by rw [hxh']; rfl]
          · simp [List.countP_cons, hA, isUpdateAction]
            omega
          · simp [List.countP_cons, hA]
        | none =>
          have hA : rowVerdict onDisk hashLookup r = .deleted := by
            unfold rowVerdict; rw [if_neg hp, hL]
          have hstep : reconcileStep onDisk hashLookup (cur, u, v) r
              = (cur.filter (fun x => !(x.hash_v2 == r.hash_v2)), u, v + 1) := by
            unfold reconcileStep; rw [if_neg hp, hL]
          rw [hstep, ih htail hKey' _ _ _]
          simp only [Prod.mk.injEq]
          refine ⟨?_, ?_, ?_⟩
          · rw [filterMap_filter_eq]
            apply List.filterMap_congr
            intro x _
            rw [pendingApply_cons]
            by_cases hxh : (r.hash_v2 == x.hash_v2) = true
            · have hxh' : (!(x.hash_v2 == r.hash_v2)) = false := by
                have : r.hash_v2 = x.hash_v2 := by simpa using hxh
                simp [this.symm]
              rw [if_pos hxh, hA, hxh']
              rfl
            · have hxh' : (!(x.hash_v2 == r.hash_v2)) = true := by
                have : ¬(r.hash_v2 = x.hash_v2) := by simpa using hxh
                simpa using fun he => this he.symm
              rw [if_neg hxh, hxh']
              rfl
          · simp [List.countP_cons, hA, isUpdateAction]
          · simp [List.countP_cons, hA]
            omega

/-- Rows of a pairwise-hash-distinct table with equal modern hashes are
equal. -/
theorem eq_of_mem_pairwise_hash :
    ∀ (db : List Torrent),
      db.Pairwise (fun a b => a.hash_v2 ≠ b.hash_v2) →
      ∀ a ∈ db, ∀ b ∈ db, a.hash_v2 = b.hash_v2 → a = b := by
  intro db
  induction db with
  | nil => intro _ a ha; cases ha
  | cons x xs ih =>
    intro hPW a ha b hb he
    rcases List.pairwise_cons.mp hPW with ⟨hx, hxs⟩
    rcases List.mem_cons.mp ha with rfl | ha' <;>
      rcases List.mem_cons.mp hb with rfl | hb'
    · rfl
    · exact absurd he (hx b hb')
    · exact absurd he.symm (hx a ha')
    · exact ih hxs a ha' b hb' he

/-- `check_torrent_database`, characterized: under the hash-uniqueness
invariant (and a scan returning each row's own hash), the sweep's output
table applies each row's own verdict pointwise, and the counts tally the
repaired and purged rows. -/
theorem check_db_char (onDisk : String → Bool)
    (hashLookup : Torrent → Except String (Option String × String))
    (db : List Torrent)
    (hWF : db.Pairwise (fun a b => a.hash_v2 ≠ b.hash_v2))
    (hKey : ∀ r ∈ db, ∀ res, hashLookup r = Except.ok res →
      res.2 = r.hash_v2) :
    check_torrent_database onDisk hashLookup db
      = ⟨db.filterMap (verdictMap onDisk hashLookup), db.length,
         db.countP (fun r => isUpdateAction (rowVerdict onDisk hashLookup r)),
         db.countP (fun r => rowVerdict onDisk hashLookup r
           == RowAction.deleted)⟩ := by
  unfold check_torrent_database
  rw [reconcile_foldl_char onDisk hashLookup db hWF hKey db 0 0]
  have hmain : db.filterMap (pendingApply onDisk hashLookup db)
      = db.filterMap (verdictMap onDisk hashLookup) := by
    apply List.filterMap_congr
    intro x hx
    have huniq : ∀ b ∈ db, (b.hash_v2 == x.hash_v2) = true → b = x := by
      intro b hb hbe
      exact eq_of_mem_pairwise_hash db hWF b hb x hx (by simpa using hbe)
    unfold pendingApply
    rw [find?_eq_of_mem_unique _ db x hx (by simp) huniq]
    unfold verdictMap applyVerdict
    cases hA : rowVerdict onDisk hashLookup x <;> simp [hA]
  simp [hmain]

/-- A surviving row keeps its modern hash through the sweep. -/
theorem verdictMap_hash (onDisk : String → Bool)
    (hashLookup : Torrent → Except String (Option String × String))
    (a x : Torrent) (h : verdictMap onDisk hashLookup a = some x) :
    x.hash_v2 = a.hash_v2 := by
  unfold verdictMap applyVerdict at h
  cases hA : rowVerdict onDisk hashLookup a <;> rw [hA] at h
  · exact (Option.some.inj h).symm ▸ rfl
  · rw [← Option.some.inj h]
  · cases h
  · exact (Option.some.inj h).symm ▸ rfl

/-- The sweep exactly as `check_torrent_database` runs it: the hash scan is
the injected `find_matching_torrent` over the storage directory, run in the
executor (no exception). -/
def reconcileSweep (onDisk : String → Bool)
    (storage : List (String × String × String)) (db : List Torrent) :
    SweepResult :=
  check_torrent_database onDisk
    (fun r => Except.ok (find_matching_torrent storage r.hash_v1 r.hash_v2)) db

/-- C5: the per-row state machine of one reconciliation sweep, under the
hash-uniqueness invariant: a row whose stored path exists is left in the
table unchanged; a row whose path is missing but whose hash is recomputed
somewhere in storage survives with its path repaired (not deleted); a row
with no matching file anywhere is purged. -/
theorem reconciler_row_state_machine (onDisk : String → Bool)
    (storage : List (String × String × String)) (db : List Torrent)
    (hWF : db.Pairwise (fun a b => a.hash_v2 ≠ b.hash_v2)) :
    ∀ r ∈ db,
      (pathOK onDisk r = true → r ∈ (reconcileSweep onDisk storage db).db)
      ∧ (pathOK onDisk r = false →
          ∀ pnew, (find_matching_torrent storage r.hash_v1 r.hash_v2).1
              = some pnew →
            { r with torrent_path := some pnew }
              ∈ (reconcileSweep onDisk storage db).db)
      ∧ (pathOK onDisk r = false →
          (find_matching_torrent storage r.hash_v1 r.hash_v2).1 = none →
          ∀ x ∈ (reconcileSweep onDisk storage db).db,
            x.hash_v2 ≠ r.hash_v2) := by
  have hKey : ∀ rr ∈ db, ∀ res,
      (fun r : Torrent => (Except.ok (find_matching_torrent storage r.hash_v1
        r.hash_v2) : Except String (Option String × String))) rr
        = Except.ok res → res.2 = rr.hash_v2 := by
    intro rr _ res h
    rw [← Except.ok.inj h]
    rfl
  have hdb : (reconcileSweep onDisk storage db).db
      = db.filterMap (verdictMap onDisk
          (fun r => Except.ok (find_matching_torrent storage r.hash_v1
            r.hash_v2))) := by
    unfold reconcileSweep
    rw [check_db_char onDisk _ db hWF hKey]
  intro r hr
  refine ⟨?_, ?_, ?_⟩
  · intro hp
    have hA : rowVerdict onDisk
        (fun r : Torrent => (Except.ok (find_matching_torrent storage
          r.hash_v1 r.hash_v2) : Except String (Option String × String))) r
        = .untouched := by
      unfold rowVerdict; rw [if_pos hp]
    rw [hdb]
    refine List.mem_filterMap.mpr ⟨r, hr, ?_⟩
    unfold verdictMap
    rw [hA]
    rfl
  · intro hp pnew hfind
    have hpair : find_matching_torrent storage r.hash_v1 r.hash_v2
        = (some pnew, r.hash_v2) :=
      Prod.ext hfind rfl
    have hA : rowVerdict onDisk
        (fun r : Torrent => (Except.ok (find_matching_torrent storage
          r.hash_v1 r.hash_v2) : Except String (Option String × String))) r
        = .pathUpdated pnew := by
      unfold rowVerdict
      rw [if_neg (by simp [hp])]
      simp [hpair]
    rw [hdb]
    refine List.mem_filterMap.mpr ⟨r, hr, ?_⟩
    unfold verdictMap
    rw [hA]
    rfl
  · intro hp hfind x hx
    have hpair : find_matching_torrent storage r.hash_v1 r.hash_v2
        = (none, r.hash_v2) :=
      Prod.ext hfind rfl
    have hA : rowVerdict onDisk
        (fun r : Torrent => (Except.ok (find_matching_torrent storage
          r.hash_v1 r.hash_v2) : Except String (Option String × String))) r
        = .deleted := by
      unfold rowVerdict
      rw [if_neg (by simp [hp])]
      simp [hpair]
    rw [hdb] at hx
    rcases List.mem_filterMap.mp hx with ⟨a, ha, hva⟩
    intro hxr
    have har : a = r :=
      eq_of_mem_pairwise_hash db hWF a ha r hr
        ((verdictMap_hash _ _ a x hva).symm.trans hxr)
    rw [har] at hva
    unfold verdictMap at hva
    rw [hA] at hva
    cases hva

/-- Filesystem collaborator for the sweep witnesses: only
`/t/a.torrent` exists on disk. -/
def wDisk : String → Bool := fun p => p == "/t/a.torrent"

/-- Storage-scan collaborator: one file, whose recomputed hashes match
`wRowB`. -/
def wStorage : List (String × String × String) :=
  [("/t/moved.torrent", "b1", "b2")]

def wRowA : Torrent :=
  { id := 61, name := "A", normalized_name := "a", season := none,
    episode := none, imdbid := none, tmdbid := none, tvdbid := none,
    artist := none, album := none, size := 1, category := 2000,
    hash_v1 := "a1", hash_v2 := "a2", hash_v2_trunc := "a1", files := 1,
    grabs := 0, added_on := 1, added_by_user_id := some 2, last_seen := 1,
    torrent_path := some "/t/a.torrent" }

def wRowB : Torrent :=
  { id := 62, name := "B", normalized_name := "b", season := none,
    episode := none, imdbid := none, tmdbid := none, tvdbid := none,
    artist := none, album := none, size := 1, category := 2000,
    hash_v1 := "b1", hash_v2 := "b2", hash_v2_trunc := "b1", files := 1,
    grabs := 0, added_on := 2, added_by_user_id := some 2, last_seen := 2,
    torrent_path := none }

def wRowC : Torrent :=
  { id := 63, name := "C", normalized_name := "c", season := none,
    episode := none, imdbid := none, tmdbid := none, tvdbid := none,
    artist := none, album := none, size := 1, category := 2000,
    hash_v1 := "c1", hash_v2 := "c2", hash_v2_trunc := "c1", files := 1,
    grabs := 0, added_on := 3, added_by_user_id := some 2, last_seen := 3,
    torrent_path := some "/t/gone.torrent" }

theorem reconciler_row_state_machine_witness :
    wRowA ∈ (reconcileSweep wDisk wStorage [wRowA, wRowB, wRowC]).db
    ∧ { wRowB with torrent_path := some "/t/moved.torrent" }
        ∈ (reconcileSweep wDisk wStorage [wRowA, wRowB, wRowC]).db :=
  ⟨(reconciler_row_state_machine wDisk wStorage [wRowA, wRowB, wRowC]
      (by decide) wRowA (by decide)).1 (by decide),
   (reconciler_row_state_machine wDisk wStorage [wRowA, wRowB, wRowC]
      (by decide) wRowB (by decide)).2.1 (by decide) "/t/moved.torrent"
      (by decide)⟩

/-- C6: a per-item error at position N of the sweep is caught: the final
table and both counts are exactly those obtained by applying every other
item's verdict — the failed item stays in place and is not counted, items
after it are still processed, and the sweep still returns its
(total examined, repaired, removed) triple. -/
theorem reconciler_error_tolerance (onDisk : String → Bool)
    (hashLookup : Torrent → Except String (Option String × String))
    (xs ys : List Torrent) (b : Torrent)
    (hWF : (xs ++ b :: ys).Pairwise (fun a c => a.hash_v2 ≠ c.hash_v2))
    (hKey : ∀ r ∈ xs ++ b :: ys, ∀ res, hashLookup r = Except.ok res →
      res.2 = r.hash_v2)
    (hb : rowVerdict onDisk hashLookup b = .failed) :
    (check_torrent_database onDisk hashLookup (xs ++ b :: ys)).total
        = (xs ++ b :: ys).length
    ∧ (check_torrent_database onDisk hashLookup (xs ++ b :: ys)).db
        = xs.filterMap (verdictMap onDisk hashLookup)
          ++ b :: ys.filterMap (verdictMap onDisk hashLookup)
    ∧ (check_torrent_database onDisk hashLookup (xs ++ b :: ys)).updated
        = xs.countP (fun r => isUpdateAction (rowVerdict onDisk hashLookup r))
          + ys.countP (fun r => isUpdateAction (rowVerdict onDisk hashLookup r))
    ∧ (check_torrent_database onDisk hashLookup (xs ++ b :: ys)).removed
        = xs.countP (fun r => rowVerdict onDisk hashLookup r
            == RowAction.deleted)
          + ys.countP (fun r => rowVerdict onDisk hashLookup r
            == RowAction.deleted) := by
  rw [check_db_char onDisk hashLookup _ hWF hKey]
  have hv : verdictMap onDisk hashLookup b = some b := by
    unfold verdictMap
    rw [hb]
    rfl
  refine ⟨rfl, ?_, ?_, ?_⟩
  · rw [List.filterMap_append, List.filterMap_cons]
    simp [hv]
  · rw [List.countP_append, List.countP_cons]
    simp [hb, isUpdateAction]
  · rw [List.countP_append, List.countP_cons]
    simp [hb]

/-- Hash-scan collaborator for the C6 witness: raises on the row with
modern hash `e2`, succeeds on the rest. -/
def wLookup : Torrent → Except String (Option String × String) :=
  fun r => if r.hash_v2 == "e2" then Except.error "io error"
           else Except.ok (find_matching_torrent wStorage r.hash_v1 r.hash_v2)

/-- The failing middle row for the C6 witness. -/
def wErrRow : Torrent :=
  { id := 64, name := "E", normalized_name := "e", season := none,
    episode := none, imdbid := none, tmdbid := none, tvdbid := none,
    artist := none, album := none, size := 1, category := 2000,
    hash_v1 := "e1", hash_v2 := "e2", hash_v2_trunc := "e1", files := 1,
    grabs := 0, added_on := 4, added_by_user_id := some 2, last_seen := 4,
    torrent_path := none }

theorem reconciler_error_tolerance_witness :
    (check_torrent_database wDisk wLookup ([wRowA] ++ wErrRow :: [wRowC])).total
        = ([wRowA] ++ wErrRow :: [wRowC]).length
    ∧ (check_torrent_database wDisk wLookup
        ([wRowA] ++ wErrRow :: [wRowC])).removed
        = [wRowA].countP (fun r => rowVerdict wDisk wLookup r
            == RowAction.deleted)
          + [wRowC].countP (fun r => rowVerdict wDisk wLookup r
            == RowAction.deleted) := by
  have hKey : ∀ r ∈ [wRowA] ++ wErrRow :: [wRowC], ∀ res,
      wLookup r = Except.ok res → res.2 = r.hash_v2 := by
    intro r _ res h
    by_cases hc : (r.hash_v2 == "e2") = true
    · unfold wLookup at h
      rw [if_pos hc] at h
      cases h
    · unfold wLookup at h
      rw [if_neg hc] at h
      rw [← Except.ok.inj h]
      rfl
  have hmain := reconciler_error_tolerance wDisk wLookup [wRowA] [wRowC]
    wErrRow (by decide) hKey (by decide)
  exact ⟨hmain.1, hmain.2.2.2⟩
